import Mathlib

/-!
Verification of the batch stock-screening engine of the Telegram Minervini
screener bot.

The embedding below translates the Python sources into Lean:

* `api/cron-scan.py`  : `check_stock_quick`, `get_all_stocks`, `run_batch_scan`
  and the HTTP trigger `handler.do_GET`.
* `api/webhook.py`    : the evaluation core of `handle_check`.
* `api/scan.py`       : `quick_check_stock`.

Prices are modelled as rationals (the Python code uses 64-bit floats; none of
the properties proved here depend on float rounding).  Pandas NaN semantics
(a comparison against NaN is `False`), Python truthiness of optional floats,
and Python short-circuit `and` chains are modelled by explicit helpers.
The Redis key-value store is modelled as an explicit record of the three
persisted keys; wall-clock time enters as an integer `now` (seconds) and the
9-second time budget of the scanning loop as a natural-number fuel counting
how many loop iterations pass the elapsed-time check.
-/

namespace Screener

/-- One daily OHLCV price bar (`hist` rows in the sources). -/
structure PriceBar where
  date : Nat
  openPrice : ℚ
  high : ℚ
  low : ℚ
  close : ℚ
  volume : ℚ
deriving Repr, DecidableEq

/-- A chronological price series, as returned by `ticker.history(period="1y")`. -/
abbrev History := List PriceBar

/-- The `Close` column. -/
def closes (h : History) : List ℚ := h.map (·.close)

/-- `hist['Close'].iloc[-1]` (callers guard against the empty series, where
pandas would raise; the default is never observed). -/
def currentPrice (h : History) : ℚ := (closes h).getLast?.getD 0

/-- `hist['High'].max()` (default never observed: callers guard emptiness). -/
def week52High (h : History) : ℚ := ((h.map (·.high)).max?).getD 0

/-- `hist['Low'].min()`. -/
def week52Low (h : History) : ℚ := ((h.map (·.low)).min?).getD 0

/-- `((current_price - low_52w) / low_52w) * 100` as in all three sources. -/
def pctAboveLow (h : History) : ℚ :=
  (currentPrice h - week52Low h) / week52Low h * 100

/-- `((high_52w - current_price) / high_52w) * 100` as in all three sources. -/
def pctFromHigh (h : History) : ℚ :=
  (week52High h - currentPrice h) / week52High h * 100

/-- `hist['Close'].rolling(window=w).mean().iloc[-k]` for `k ≥ 1`: the mean of
the `w` closes ending at position `length - k`; `none` models the NaN that the
rolling mean leaves when fewer than `w` bars precede that position
(defined exactly when `length ≥ w + k - 1`). -/
def smaFromEnd (w k : Nat) (h : History) : Option ℚ :=
  if 1 ≤ k ∧ w + k - 1 ≤ h.length then
    some (((((closes h).take (h.length - (k - 1))).drop
            (h.length - (k - 1) - w)).sum) / (w : ℚ))
  else none

/-- `hist['Close'].rolling(window=w).mean().iloc[-1]`. -/
def smaLast (w : Nat) (h : History) : Option ℚ := smaFromEnd w 1 h

/-- A pandas/numpy `>` comparison where either side may be NaN (modelled by
`none`): any comparison against NaN yields `False`. -/
def optGt (a b : Option ℚ) : Bool :=
  match a, b with
  | some x, some y => decide (x > y)
  | _, _ => false

/-- Python truthiness of an optional float: `None` and `0.0` are falsy. -/
def pyTruthy : Option ℚ → Bool
  | none => false
  | some x => decide (x ≠ 0)

/-- Tri-state projection of a Python chain `a and rest` whose left operand is
an optional float: `None` propagates as the insufficient-data state, a falsy
(zero) number short-circuits to a failed criterion, otherwise the chain
continues with `rest`. -/
def pyAnd (a : Option ℚ) (rest : Option Bool) : Option Bool :=
  match a with
  | none => none
  | some x => if x = 0 then some false else rest

/-- Python `round` to an integer: round half to even (banker's rounding). -/
def roundHalfEven (x : ℚ) : ℤ :=
  if x - Int.floor x < 1 / 2 then Int.floor x
  else if 1 / 2 < x - Int.floor x then Int.floor x + 1
  else if (Int.floor x) % 2 = 0 then Int.floor x else Int.floor x + 1

/-- Python `round(x, dp)`. -/
def roundTo (dp : Nat) (x : ℚ) : ℚ :=
  (roundHalfEven (x * 10 ^ dp) : ℚ) / 10 ^ dp

/-- Python list indexing `l[i]`: negative indices wrap once from the end;
`none` models the `IndexError` raised when the index is out of range. -/
def pyIndex {α : Type} (l : List α) (i : ℤ) : Option α :=
  if 0 ≤ i then l.get? i.toNat
  else if 0 ≤ (l.length : ℤ) + i then l.get? ((l.length : ℤ) + i).toNat
  else none

/-- `MIN_PERCENT_ABOVE_52W_LOW = 30` (module constant of `cron-scan.py` and
`webhook.py`). -/
def MIN_PERCENT_ABOVE_52W_LOW : ℚ := 30

/-- `MAX_PERCENT_FROM_52W_HIGH = 25` (module constant of `cron-scan.py` and
`webhook.py`). -/
def MAX_PERCENT_FROM_52W_HIGH : ℚ := 25

/-- The dict returned by `check_stock_quick` for a qualifying stock. -/
structure ScanResult where
  symbol : String
  price : ℚ
  score : Nat
  sma50 : ℚ
  sma150 : ℚ
  sma200 : ℚ
  pctFromHigh : ℚ
  pctAboveLow : ℚ
deriving Repr, DecidableEq

/-- The nine boolean criteria of `check_stock_quick` (`cron-scan.py` lines
175-185), in dictionary order `'1'`..`'9'`.  The function is only applied
under the `len(hist) >= 200` guard, where the three last-row SMAs are
defined; criterion 4 compares against `iloc[-23]` of the 200-bar rolling
mean, which is NaN (hence the comparison is `False`) when fewer than 222
bars exist. -/
def criteriaQuick (h : History) : List Bool :=
  [ optGt (some (currentPrice h)) (smaLast 150 h),
    optGt (some (currentPrice h)) (smaLast 200 h),
    optGt (smaLast 150 h) (smaLast 200 h),
    optGt (smaFromEnd 200 1 h) (smaFromEnd 200 23 h),
    optGt (smaLast 50 h) (smaLast 150 h),
    optGt (smaLast 50 h) (smaLast 200 h),
    optGt (some (currentPrice h)) (smaLast 50 h),
    decide (pctAboveLow h ≥ MIN_PERCENT_ABOVE_52W_LOW),
    decide (pctFromHigh h ≤ MAX_PERCENT_FROM_52W_HIGH) ]

/-- `f"{symbol}.NS"` unless the symbol already ends in `.NS`. -/
def tickerSymbol (symbol : String) : String :=
  if symbol.endsWith ".NS" then symbol else symbol ++ ".NS"

/-- `check_stock_quick` (`cron-scan.py` lines 144-204).  `fetch` models
`yf.Ticker(...).history(period="1y")`; `fetch ts = none` models a raised
exception, which the enclosing `try` turns into `None`.  The result dict is
returned only when `score >= 9`. -/
def checkStockQuick (fetch : String → Option History) (symbol : String) :
    Option ScanResult :=
  match fetch (tickerSymbol symbol) with
  | none => none
  | some hist =>
    if hist.isEmpty || hist.length < 200 then none
    else
      let score := (criteriaQuick hist).countP id
      if 9 ≤ score then
        some { symbol := symbol
               price := roundTo 2 (currentPrice hist)
               score := score
               sma50 := roundTo 2 ((smaLast 50 hist).getD 0)
               sma150 := roundTo 2 ((smaLast 150 hist).getD 0)
               sma200 := roundTo 2 ((smaLast 200 hist).getD 0)
               pctFromHigh := roundTo 1 (pctFromHigh hist)
               pctAboveLow := roundTo 1 (pctAboveLow hist) }
      else none

/-- The nine tri-state criteria of `handle_check` (`webhook.py` lines
121-170), in key order; `none` is the `None` insufficient-data marker.  The
`if sma_150:` tests are Python truthiness tests on an optional float. -/
def checkCriteria (h : History) : List (Option Bool) :=
  [ if pyTruthy (smaLast 150 h) then some (optGt (some (currentPrice h)) (smaLast 150 h)) else none,
    if pyTruthy (smaLast 200 h) then some (optGt (some (currentPrice h)) (smaLast 200 h)) else none,
    if pyTruthy (smaLast 150 h) && pyTruthy (smaLast 200 h) then
      some (optGt (smaLast 150 h) (smaLast 200 h)) else none,
    if 222 ≤ h.length then some (optGt (smaFromEnd 200 1 h) (smaFromEnd 200 23 h)) else none,
    if pyTruthy (smaLast 50 h) && pyTruthy (smaLast 150 h) then
      some (optGt (smaLast 50 h) (smaLast 150 h)) else none,
    if pyTruthy (smaLast 50 h) && pyTruthy (smaLast 200 h) then
      some (optGt (smaLast 50 h) (smaLast 200 h)) else none,
    if pyTruthy (smaLast 50 h) then some (optGt (some (currentPrice h)) (smaLast 50 h)) else none,
    some (decide (pctAboveLow h ≥ MIN_PERCENT_ABOVE_52W_LOW)),
    some (decide (pctFromHigh h ≤ MAX_PERCENT_FROM_52W_HIGH)) ]

/-- The numeric core of the evaluation reported by `handle_check`: the
tri-state criteria dict, the score loop (counting values that are non-`None`
and truthy), `total_criteria`, and `passes_all`. -/
structure CheckEval where
  criteria : List (Option Bool)
  score : Nat
  totalCriteria : Nat
  passesAll : Bool
deriving Repr, DecidableEq

/-- Outcome of `handle_check` (`webhook.py` lines 80-233): the fetch
exception message, the empty-series message, the under-50-days message, or a
full evaluation. -/
inductive CheckOut where
  | fetchError
  | noData
  | insufficientDays (n : Nat)
  | outEval (e : CheckEval)
deriving Repr, DecidableEq

/-- `handle_check` as a function of the fetched history (`none` models the
fetch raising, caught by the outer `except`). -/
def handleCheck (h : Option History) : CheckOut :=
  match h with
  | none => .fetchError
  | some hist =>
    if hist.isEmpty then .noData
    else if hist.length < 50 then .insufficientDays hist.length
    else
      let cs := checkCriteria hist
      let score := cs.countP (fun v => v = some true)
      let total := cs.countP (fun v => v.isSome)
      .outEval ⟨cs, score, total, decide (score = 9 ∧ total = 9)⟩

/-- The nine criteria of `quick_check_stock` (`scan.py` lines 67-77), each a
Python short-circuit `and` chain over optional SMA floats projected to the
tri-state `{pass, fail, insufficient}`. -/
def criteriaScan (h : History) : List (Option Bool) :=
  [ pyAnd (smaLast 150 h) (some (optGt (some (currentPrice h)) (smaLast 150 h))),
    pyAnd (smaLast 200 h) (some (optGt (some (currentPrice h)) (smaLast 200 h))),
    pyAnd (smaLast 150 h) (pyAnd (smaLast 200 h) (some (optGt (smaLast 150 h) (smaLast 200 h)))),
    pyAnd (smaLast 200 h)
      (pyAnd (if 222 ≤ h.length then smaFromEnd 200 22 h else none)
        (some (optGt (smaLast 200 h) (if 222 ≤ h.length then smaFromEnd 200 22 h else none)))),
    pyAnd (smaLast 50 h) (pyAnd (smaLast 150 h) (some (optGt (smaLast 50 h) (smaLast 150 h)))),
    pyAnd (smaLast 50 h) (pyAnd (smaLast 200 h) (some (optGt (smaLast 50 h) (smaLast 200 h)))),
    pyAnd (smaLast 50 h) (some (optGt (some (currentPrice h)) (smaLast 50 h))),
    some (decide (pctAboveLow h ≥ 30)),
    some (decide (pctFromHigh h ≤ 25)) ]

/-- The result dict of `quick_check_stock`; SMA fields are `None` when the
corresponding float is missing or falsy (`round(...) if sma else None`). -/
structure QuickResult where
  symbol : String
  price : ℚ
  score : Nat
  passes : Bool
  sma50 : Option ℚ
  sma150 : Option ℚ
  sma200 : Option ℚ
  high52w : ℚ
  low52w : ℚ
  pctAboveLow : ℚ
  pctFromHigh : ℚ
deriving Repr, DecidableEq

/-- Outcome of `quick_check_stock`: the error dict (`'No data'` or a caught
exception) or the full result dict. -/
inductive QuickOut where
  | errRes (symbol : String)
  | ok (r : QuickResult)
deriving Repr, DecidableEq

/-- `round(float(x), 2) if x else None`. -/
def optRound2 (o : Option ℚ) : Option ℚ :=
  if pyTruthy o then o.map (roundTo 2) else none

/-- `quick_check_stock` (`scan.py` lines 39-96) as a function of the fetched
history (`none` models the fetch raising, caught and turned into the error
dict). -/
def quickCheckStock (symbol : String) (h : Option History) : QuickOut :=
  match h with
  | none => .errRes symbol
  | some hist =>
    if hist.isEmpty then .errRes symbol
    else
      let cs := criteriaScan hist
      let score := cs.countP (fun v => v = some true)
      .ok { symbol := symbol
            price := roundTo 2 (currentPrice hist)
            score := score
            passes := decide (score = 9)
            sma50 := optRound2 (smaLast 50 hist)
            sma150 := optRound2 (smaLast 150 hist)
            sma200 := optRound2 (smaLast 200 hist)
            high52w := roundTo 2 (week52High hist)
            low52w := roundTo 2 (week52Low hist)
            pctAboveLow := roundTo 1 (pctAboveLow hist)
            pctFromHigh := roundTo 1 (pctFromHigh hist) }

/-- The hard-coded last-resort universe (`cron-scan.py` lines 135-141). -/
def fallbackStocks : List String :=
  [ "RELIANCE", "TCS", "INFY", "HDFCBANK", "ICICIBANK", "BHARTIARTL",
    "ITC", "SBIN", "LT", "AXISBANK", "MARUTI", "TITAN", "SUNPHARMA",
    "BAJFINANCE", "KOTAKBANK", "WIPRO", "HCLTECH", "TATAMOTORS", "M&M",
    "ADANIENT", "ASIANPAINT", "BAJAJFINSV", "ULTRACEMCO", "NESTLEIND",
    "TATASTEEL", "POWERGRID", "TECHM", "JSWSTEEL", "NTPC", "ONGC" ]

/-- Second and third tiers of `get_all_stocks`: the Nifty-500 list when its
module loads and its call succeeds, else the hard-coded list.  Modelled from the spec:
`src.stock_list.get_nse_stock_list` (the curated ~500-symbol list) is not in
the repository snapshot; `mid = none` models the `except: pass` path. -/
def getMidOrFallback (mid : Option (List String)) : List String :=
  match mid with
  | some m => m
  | none => fallbackStocks

/-- `get_all_stocks` (`cron-scan.py` lines 115-141).  Modelled from the spec:
`src.all_nse_stocks.get_all_nse_stocks` (the ~2000-symbol list) is not in the
repository snapshot; `large = none` models its import or call raising.  The
large list is used only when it is non-empty and longer than 1000 symbols
(`if stocks and len(stocks) > 1000`); otherwise control falls through to the
next tier. -/
def getAllStocks (large mid : Option (List String)) : List String :=
  match large with
  | some stocks =>
    if stocks.isEmpty = false ∧ 1000 < stocks.length then stocks
    else getMidOrFallback mid
  | none => getMidOrFallback mid

/-- The three persisted Redis keys (`scan_offset`, `scan_results`,
`last_scan_complete`); `none` models an absent key (or unparseable stored
timestamp, which the `except: pass` around `fromisoformat` treats the same
way).  Timestamps are integer seconds. -/
structure KVState where
  scanOffset : Option ℤ
  scanResults : Option (List ScanResult)
  lastScanComplete : Option ℤ
deriving Repr, DecidableEq

/-- A payload handed to `send_telegram` at the end of a full pass: either the
scan-complete digest over the accumulated results or the
no-qualifying-stocks variant. -/
inductive Report where
  | scanComplete (total : Nat) (results : List ScanResult)
  | noMatches (total : Nat)
deriving Repr, DecidableEq

/-- The dict returned by `run_batch_scan`: the yfinance-unavailable error,
the cooldown waiting dict (status and message only), or the full counts
dict with status `partial_complete` or `scan_complete`. -/
inductive BatchOutcome where
  | err (msg : String)
  | waiting (hoursAgo : ℚ)
  | done (isComplete : Bool) (processed : Nat) (offset : ℤ) (total : Nat)
         (foundTotal : Nat) (foundInBatch : Nat) (nextOffset : ℤ)
deriving Repr, DecidableEq

/-- The `status` field of the returned dict (`none` for the error dict). -/
def BatchOutcome.statusOf : BatchOutcome → Option String
  | .err _ => none
  | .waiting _ => some "waiting"
  | .done c _ _ _ _ _ _ => some (if c then "scan_complete" else "partial_complete")

/-- Whether the returned dict carries the five counts (`processed`,
`found_in_batch`, `found_total`, `next_offset`, `total`). -/
def BatchOutcome.hasCounts : BatchOutcome → Bool
  | .done _ _ _ _ _ _ _ => true
  | _ => false

/-- Result of the scanning `while` loop: the per-invocation `new_results`
list, `scanned_count`, and the final offset — or the `IndexError` raised by
`all_stocks[offset]` on an offset below `-len(all_stocks)`, which escapes
`run_batch_scan`. -/
inductive LoopOut where
  | ok (newResults : List ScanResult) (scanned : Nat) (offset : ℤ)
  | idxError
deriving Repr, DecidableEq

/-- The scanning loop (`cron-scan.py` lines 251-261).  `budget` is the number
of iterations whose `time.time() - start_time < MAX_DURATION` check passes;
empty symbols are skipped (`if symbol:`) but still advance the offset and the
scanned count. -/
def scanLoop (fetch : String → Option History) (stocks : List String) :
    Nat → ℤ → LoopOut
  | 0, offset => .ok [] 0 offset
  | Nat.succ b, offset =>
    if offset < (stocks.length : ℤ) then
      match pyIndex stocks offset with
      | none => .idxError
      | some symbol =>
        let res := if symbol ≠ "" then checkStockQuick fetch symbol else none
        match scanLoop fetch stocks b (offset + 1) with
        | .idxError => .idxError
        | .ok nr sc off => .ok (res.toList ++ nr) (sc + 1) off
    else .ok [] 0 offset

/-- `(datetime.now() - last_dt).total_seconds() / 3600`. -/
def cooldownHours (now t : ℤ) : ℚ := ((now - t : ℤ) : ℚ) / 3600

/-- The cooldown check at the head of `run_batch_scan` (lines 229-242):
active exactly when the offset is 0, a parseable `last_scan_complete` exists,
and fewer than 4 hours have elapsed; returns the hours value shown in the
waiting message. -/
def waitingCheck (st : KVState) (now : ℤ) : Option ℚ :=
  if st.scanOffset.getD 0 = 0 then
    match st.lastScanComplete with
    | some t => if cooldownHours now t < 4 then some (cooldownHours now t) else none
    | none => none
  else none

/-- The accumulated results the loop starts from: cleared when a new pass
begins (offset 0), else the persisted `scan_results`. -/
def startResults (st : KVState) : List ScanResult :=
  if st.scanOffset.getD 0 = 0 then [] else st.scanResults.getD []

/-- Full result of one `run_batch_scan` invocation: the returned dict
(`none` when an uncaught exception escaped), the persisted state afterwards,
and the payloads handed to the notification sink. -/
structure RunResult where
  outcome : Option BatchOutcome
  state : KVState
  sent : List Report
deriving Repr, DecidableEq

/-- `run_batch_scan` (`cron-scan.py` lines 207-303).  `yfAvail` models the
module-level yfinance import; `fetch` the per-symbol history provider; `now`
the wall clock; `budget` the loop iterations permitted by the 9-second
ceiling. -/
def runBatchScan (yfAvail : Bool) (fetch : String → Option History)
    (stocks : List String) (now : ℤ) (budget : Nat) (st : KVState) : RunResult :=
  if yfAvail = false then ⟨some (.err "yfinance not available"), st, []⟩
  else
    match waitingCheck st now with
    | some hrs => ⟨some (.waiting hrs), st, []⟩
    | none =>
      match scanLoop fetch stocks budget (st.scanOffset.getD 0) with
      | .idxError => ⟨none, st, []⟩
      | .ok newResults scanned off1 =>
        let allResults := startResults st ++ newResults
        let total := stocks.length
        if (total : ℤ) ≤ off1 then
          ⟨some (.done true scanned 0 total allResults.length newResults.length 0),
           ⟨some 0, some allResults, some now⟩,
           [if allResults.isEmpty then Report.noMatches total
            else Report.scanComplete total allResults]⟩
        else
          ⟨some (.done false scanned off1 total allResults.length newResults.length off1),
           ⟨some off1, some allResults, st.lastScanComplete⟩,
           []⟩

/-- The HTTP response of the cron trigger `handler.do_GET`: the 200 JSON
response around the batch outcome, or the path through the `except` handler,
which sends a 500 status line and then crashes with a `NameError` on the
undefined `KV_REST_API_URL` before writing the diagnostic body. -/
inductive HttpOut where
  | okJson (outcome : BatchOutcome)
  | errorCrash
deriving Repr, DecidableEq

/-- Result of one `do_GET` invocation: response, persisted state afterwards,
and notification payloads sent. -/
structure GetResult where
  response : HttpOut
  state : KVState
  sent : List Report
deriving Repr, DecidableEq

/-- The tail of `do_GET` after the offset override: the optional reset, then
`run_batch_scan`.  (The `result.get('total_found', 0)` enrichment is dead
code — the dict key is `found_total` — and adds nothing observable.) -/
def doGetRun (yfAvail : Bool) (fetch : String → Option History)
    (stocks : List String) (now : ℤ) (budget : Nat) (reset : Bool)
    (st : KVState) : GetResult :=
  let st1 := if reset then { st with scanOffset := some 0, scanResults := some [] } else st
  let r := runBatchScan yfAvail fetch stocks now budget st1
  match r.outcome with
  | some o => ⟨.okJson o, r.state, r.sent⟩
  | none => ⟨.errorCrash, r.state, r.sent⟩

/-- Digit-string parser underlying `pyInt`: `none` on the empty string or any
non-digit character. -/
def digitsToNat : List Char → Option Nat
  | [] => none
  | cs =>
    cs.foldl
      (fun acc c =>
        match acc with
        | none => none
        | some n => if c.isDigit then some (n * 10 + (c.toNat - 48)) else none)
      (some 0)

/-- Python `int(string)`: an optional sign followed by at least one ASCII
digit; `none` models the `ValueError` raised on anything else (whitespace
trimming and underscore grouping are refinements irrelevant to the claims). -/
def pyInt (s : String) : Option ℤ :=
  match s.toList with
  | '-' :: rest => (digitsToNat rest).map (fun n => -(n : ℤ))
  | '+' :: rest => (digitsToNat rest).map (fun n => (n : ℤ))
  | cs => (digitsToNat cs).map (fun n => (n : ℤ))

/-- `handler.do_GET` (`cron-scan.py` lines 309-350).  `manualOffset` is the
`offset` query parameter; `int(manual_offset)` is modelled by `pyInt`, whose
failure (the `ValueError`) is raised before `kv_set` is invoked, so the
store is untouched on the rejection path. -/
def doGet (yfAvail : Bool) (fetch : String → Option History)
    (stocks : List String) (now : ℤ) (budget : Nat)
    (manualOffset : Option String) (reset : Bool) (st : KVState) : GetResult :=
  match manualOffset with
  | some s =>
    match pyInt s with
    | none => ⟨.errorCrash, st, []⟩
    | some i => doGetRun yfAvail fetch stocks now budget reset { st with scanOffset := some i }
  | none => doGetRun yfAvail fetch stocks now budget reset st

/-! ## Claim theorems -/

/-- A one-bar price series used to instantiate threshold statements. -/
def barC2 : History := [⟨0, 10, 12, 6, 10, 0⟩]

/-- C2: for every price series with at least one bar and positive (hence
defined) 52-week extremes, criterion 8 of `check_stock_quick` is true exactly
when `(current_price - week52_low) / week52_low * 100 ≥ 30` and criterion 9 is
true exactly when `(week52_high - current_price) / week52_high * 100 ≤ 25`,
the thresholds being the module constants with default values 30 and 25. -/
theorem criteriaQuick_thresholds_8_9 (h : History) (hbar : 0 < h.length)
    (hlow : 0 < week52Low h) (hhigh : 0 < week52High h) :
    ((criteriaQuick h)[7]? = some true ↔
       (currentPrice h - week52Low h) / week52Low h * 100 ≥ 30)
    ∧ ((criteriaQuick h)[8]? = some true ↔
       (week52High h - currentPrice h) / week52High h * 100 ≤ 25)
    ∧ MIN_PERCENT_ABOVE_52W_LOW = 30 ∧ MAX_PERCENT_FROM_52W_HIGH = 25 := by
  refine ⟨?_, ?_, rfl, rfl⟩ <;>
    simp [criteriaQuick, pctAboveLow, pctFromHigh,
          MIN_PERCENT_ABOVE_52W_LOW, MAX_PERCENT_FROM_52W_HIGH]

/-- Witness for C2 at a concrete one-bar series. -/
theorem criteriaQuick_thresholds_8_9_witness :
    ((criteriaQuick barC2)[7]? = some true ↔
       (currentPrice barC2 - week52Low barC2) / week52Low barC2 * 100 ≥ 30)
    ∧ ((criteriaQuick barC2)[8]? = some true ↔
       (week52High barC2 - currentPrice barC2) / week52High barC2 * 100 ≤ 25)
    ∧ MIN_PERCENT_ABOVE_52W_LOW = 30 ∧ MAX_PERCENT_FROM_52W_HIGH = 25 :=
  criteriaQuick_thresholds_8_9 barC2 (by decide) (by decide) (by decide)

/-- C3: when the persisted offset is 0 and `last_scan_complete` is less than
the 4-hour cooldown (14400 seconds) in the past, `run_batch_scan` returns the
waiting outcome, sends nothing, and leaves the persisted state unchanged. -/
theorem runBatchScan_cooldown_waiting (fetch : String → Option History)
    (stocks : List String) (now : ℤ) (budget : Nat) (st : KVState) (t : ℤ)
    (hoff : st.scanOffset.getD 0 = 0) (hlast : st.lastScanComplete = some t)
    (hrecent : now - t < 14400) :
    runBatchScan true fetch stocks now budget st =
      ⟨some (.waiting (cooldownHours now t)), st, []⟩ := by
  have hcast : ((now - t : ℤ) : ℚ) < 14400 := by exact_mod_cast hrecent
  have hc : cooldownHours now t < 4 := by
    unfold cooldownHours
    rw [div_lt_iff₀ (by norm_num : (0 : ℚ) < 3600)]
    linarith
  simp [runBatchScan, waitingCheck, hoff, hlast, hc]

/-- Witness for C3: a state that finished a pass one hour ago. -/
theorem runBatchScan_cooldown_waiting_witness :
    runBatchScan true (fun _ => none) [] 3600 0 ⟨some 0, some [], some 0⟩ =
      ⟨some (.waiting (cooldownHours 3600 0)), ⟨some 0, some [], some 0⟩, []⟩ :=
  runBatchScan_cooldown_waiting (fun _ => none) [] 3600 0
    ⟨some 0, some [], some 0⟩ 0 rfl rfl (by decide)

/-- C9: a trigger request whose `offset` query parameter does not parse as an
integer is rejected through the exception path (a 500 response whose
diagnostic body itself crashes on the undefined `KV_REST_API_URL`), with no
notification sent and the persisted state untouched: `int(manual_offset)`
raises before `kv_set` is invoked. -/
theorem doGet_invalid_offset_rejected (yfAvail : Bool)
    (fetch : String → Option History) (stocks : List String) (now : ℤ)
    (budget : Nat) (s : String) (reset : Bool) (st : KVState)
    (hbad : pyInt s = none) :
    doGet yfAvail fetch stocks now budget (some s) reset st =
      ⟨.errorCrash, st, []⟩ := by
  simp [doGet, hbad]

/-- Witness for C9 at the literal query value `offset=abc`. -/
theorem doGet_invalid_offset_rejected_witness :
    doGet true (fun _ => none) ["A"] 0 0 (some "abc") false ⟨some 1, some [], none⟩ =
      ⟨.errorCrash, ⟨some 1, some [], none⟩, []⟩ :=
  doGet_invalid_offset_rejected true (fun _ => none) ["A"] 0 0 "abc" false
    ⟨some 1, some [], none⟩ (by decide)

/-- The criteria list built by `handle_check` always has nine entries. -/
lemma checkCriteria_length (h : History) : (checkCriteria h).length = 9 := by
  simp [checkCriteria]

/-- A flat price bar at 100. -/
def bar100 : PriceBar := ⟨0, 100, 100, 100, 100, 0⟩

/-- A concrete 50-bar flat price series. -/
def hist50 : History := List.replicate 50 bar100

/-- The evaluation `handle_check` produces on `hist50`. -/
def e50 : CheckEval :=
  ⟨[none, none, none, none, none, none, some false, some false, some true], 1, 3, false⟩

/-- C1: an evaluation produced by `handle_check` passes exactly when its score
is 9 and no criterion is in the insufficient-data state; in particular a
score-8 evaluation with a false criterion never passes, and an evaluation
with an insufficient-data criterion never passes. -/
theorem handleCheck_passes_iff_all_defined_true (h : Option History)
    (e : CheckEval) (heq : handleCheck h = CheckOut.outEval e) :
    (e.passesAll = true ↔ e.score = 9 ∧ ∀ c ∈ e.criteria, c ≠ none)
    ∧ ((∃ c ∈ e.criteria, c = some false) → e.passesAll = false)
    ∧ ((∃ c ∈ e.criteria, c = none) → e.passesAll = false) := by
  cases h with
  | none => simp [handleCheck] at heq
  | some hist =>
    by_cases h1 : hist.isEmpty
    · simp [handleCheck, h1] at heq
    · by_cases h2 : hist.length < 50
      · simp [handleCheck, h1, h2] at heq
      · have heq2 : e = CheckEval.mk (checkCriteria hist)
            ((checkCriteria hist).countP (fun v => v = some true))
            ((checkCriteria hist).countP (fun v => v.isSome))
            (decide ((checkCriteria hist).countP (fun v => v = some true) = 9 ∧
                     (checkCriteria hist).countP (fun v => v.isSome) = 9)) := by
          have := heq
          simp only [handleCheck, h1, h2, if_false, Bool.false_eq_true,
            ite_false, CheckOut.outEval.injEq] at this
          exact this.symm
        subst heq2
        have hlen : (checkCriteria hist).length = 9 := checkCriteria_length hist
        have key : ((checkCriteria hist).countP (fun v => v = some true) = 9) ↔
            ∀ c ∈ checkCriteria hist, c = some true := by
          rw [← hlen, List.countP_eq_length]
          simp
        have key2 : (∀ c ∈ checkCriteria hist, c = some true) →
            (checkCriteria hist).countP (fun v => v.isSome) = 9 := by
          intro hall
          rw [← hlen, List.countP_eq_length]
          intro c hc
          rw [hall c hc]
          rfl
        constructor
        · simp only [CheckEval.passesAll, CheckEval.score, CheckEval.criteria,
            decide_eq_true_eq]
          constructor
          · rintro ⟨hs, -⟩
            refine ⟨hs, fun c hc => ?_⟩
            rw [key.mp hs c hc]
            exact fun h => Option.noConfusion h
          · rintro ⟨hs, -⟩
            exact ⟨hs, key2 (key.mp hs)⟩
        · constructor
          · rintro ⟨c, hc, hcf⟩
            simp only [CheckEval.passesAll, decide_eq_false_iff_not]
            rintro ⟨hs, -⟩
            have := key.mp hs c hc
            rw [hcf] at this
            simp at this
          · rintro ⟨c, hc, hcn⟩
            simp only [CheckEval.passesAll, decide_eq_false_iff_not]
            rintro ⟨hs, -⟩
            have := key.mp hs c hc
            rw [hcn] at this
            simp at this

/-- Evaluating `handle_check` on the 50-bar flat series yields the evaluation
`e50` (three defined criteria, score 1, not passing). -/
lemma handleCheck_hist50 : handleCheck (some hist50) = CheckOut.outEval e50 := by
  have hlen : hist50.length = 50 := by simp [hist50]
  have hclo : closes hist50 = List.replicate 50 (100 : ℚ) := by
    simp [closes, hist50, bar100]
  have hcp : currentPrice hist50 = 100 := by
    rw [currentPrice, hclo, List.getLast?_replicate]
    norm_num
  have hhi : week52High hist50 = 100 := by
    rw [week52High, hist50]
    rw [List.map_replicate]
    rw [List.max?_replicate_of_pos (by simp) (by norm_num)]
    simp [bar100]
  have hlo : week52Low hist50 = 100 := by
    rw [week52Low, hist50]
    rw [List.map_replicate]
    rw [List.min?_replicate_of_pos (by simp) (by norm_num)]
    simp [bar100]
  have hsma50 : smaLast 50 hist50 = some 100 := by
    rw [smaLast, smaFromEnd, if_pos (by rw [hlen]; omega)]
    rw [hclo, hlen]
    norm_num [List.sum_replicate, nsmul_eq_mul]
  have hsma150 : smaLast 150 hist50 = none := by
    rw [smaLast, smaFromEnd, if_neg]
    rw [hlen]; omega
  have hsma200 : smaLast 200 hist50 = none := by
    rw [smaLast, smaFromEnd, if_neg]
    rw [hlen]; omega
  have h8 : pctAboveLow hist50 = 0 := by rw [pctAboveLow, hcp, hlo]; norm_num
  have h9 : pctFromHigh hist50 = 0 := by rw [pctFromHigh, hcp, hhi]; norm_num
  have hcc : checkCriteria hist50 = e50.criteria := by
    rw [checkCriteria, hsma150, hsma200, hsma50, hcp, hlen, h8, h9]
    norm_num [pyTruthy, optGt, e50, MIN_PERCENT_ABOVE_52W_LOW,
      MAX_PERCENT_FROM_52W_HIGH]
  have hne : hist50.isEmpty = false := by simp [hist50]
  simp only [handleCheck, hne, Bool.false_eq_true, if_false, hlen, hcc]
  decide

/-- Witness for C1 on a concrete 50-bar series whose evaluation has three
defined criteria and score 1. -/
theorem handleCheck_passes_iff_all_defined_true_witness :
    (e50.passesAll = true ↔ e50.score = 9 ∧ ∀ c ∈ e50.criteria, c ≠ none) :=
  (handleCheck_passes_iff_all_defined_true (some hist50) e50 handleCheck_hist50).1

/-- The scanning loop never moves the offset backwards. -/
lemma scanLoop_offset_le (fetch : String → Option History) (stocks : List String)
    (budget : Nat) :
    ∀ (off : ℤ) (nr : List ScanResult) (sc : Nat) (off1 : ℤ),
      scanLoop fetch stocks budget off = .ok nr sc off1 → off ≤ off1 := by
  induction budget with
  | zero =>
    intro off nr sc off1 h
    rw [scanLoop] at h
    cases h
    exact le_refl _
  | succ b ih =>
    intro off nr sc off1 h
    rw [scanLoop] at h
    by_cases hlt : off < (stocks.length : ℤ)
    · rw [if_pos hlt] at h
      cases hpi : pyIndex stocks off with
      | none => rw [hpi] at h; cases h
      | some sym =>
        rw [hpi] at h
        simp only at h
        cases hrec : scanLoop fetch stocks b (off + 1) with
        | idxError => rw [hrec] at h; cases h
        | ok nr2 sc2 off2 =>
          rw [hrec] at h
          cases h
          have h2 := ih (off + 1) _ _ _ hrec
          omega
    · rw [if_neg hlt] at h
      cases h
      exact le_refl _

/-- C4, full-completion behaviour: whenever the scanning loop advances the
offset to (at least) the universe length, `run_batch_scan` resets the
persisted offset to 0, persists `last_scan_complete = now`, persists the
merged accumulated results, hands exactly one end-of-cycle report to the
notification sink (the no-qualifying-stocks variant when the merged results
are empty), and returns the `scan_complete` outcome with its counts. -/
theorem runBatchScan_full_complete (fetch : String → Option History)
    (stocks : List String) (now : ℤ) (budget : Nat) (st : KVState)
    (nr : List ScanResult) (sc : Nat) (off1 : ℤ)
    (hw : waitingCheck st now = none)
    (hloop : scanLoop fetch stocks budget (st.scanOffset.getD 0) = .ok nr sc off1)
    (hdone : (stocks.length : ℤ) ≤ off1) :
    runBatchScan true fetch stocks now budget st =
      ⟨some (.done true sc 0 stocks.length (startResults st ++ nr).length
         nr.length 0),
       ⟨some 0, some (startResults st ++ nr), some now⟩,
       [if (startResults st ++ nr).isEmpty then Report.noMatches stocks.length
        else Report.scanComplete stocks.length (startResults st ++ nr)]⟩ := by
  rw [runBatchScan]
  simp only [Bool.true_eq_false, if_false, hw, hloop, hdone, if_pos]

/-- Witness for C4: one symbol, an always-failing fetch, a fresh state. -/
theorem runBatchScan_full_complete_witness :
    runBatchScan true (fun _ => none) ["A"] 5 1 ⟨some 0, none, none⟩ =
      ⟨some (.done true 1 0 1 0 0 0), ⟨some 0, some [], some 5⟩,
       [Report.noMatches 1]⟩ := by
  have h := runBatchScan_full_complete (fun _ => none) ["A"] 5 1
    ⟨some 0, none, none⟩ [] 1 1 rfl (by decide) (by decide)
  simpa [startResults] using h

/-- A state with a mid-pass offset used to refute flat offset monotonicity. -/
def stC5 : KVState := ⟨some 1, some [], none⟩

/-- Counterexample to C5 as stated: starting from persisted offset 1 on a
one-symbol universe, the invocation completes the pass and the persisted
offset drops to 0, so the offset after `run_batch_scan` is not always greater
than or equal to the offset before. -/
theorem runBatchScan_offset_monotone_cex :
    (runBatchScan true (fun _ => none) ["A"] 0 0 stC5).state.scanOffset.getD 0 <
      stC5.scanOffset.getD 0 := by decide

/-- C5 as amended: after `run_batch_scan` the persisted offset is greater than
or equal to the offset before — across any pattern of per-symbol failures —
except when the invocation completes the full universe, in which case the
offset is reset to 0 and the `scan_complete` outcome is returned. -/
theorem runBatchScan_offset_monotone_unless_complete (yfAvail : Bool)
    (fetch : String → Option History) (stocks : List String) (now : ℤ)
    (budget : Nat) (st : KVState) :
    st.scanOffset.getD 0 ≤
        (runBatchScan yfAvail fetch stocks now budget st).state.scanOffset.getD 0
    ∨ ((runBatchScan yfAvail fetch stocks now budget st).state.scanOffset = some 0
       ∧ ∃ p t ft fb, (runBatchScan yfAvail fetch stocks now budget st).outcome =
           some (.done true p 0 t ft fb 0)) := by
  rw [runBatchScan]
  cases yfAvail with
  | false => simp
  | true =>
    simp only [Bool.true_eq_false, if_false]
    cases hw : waitingCheck st now with
    | some hrs => simp
    | none =>
      simp only
      cases hl : scanLoop fetch stocks budget (st.scanOffset.getD 0) with
      | idxError => simp
      | ok nr sc off1 =>
        have hle := scanLoop_offset_le fetch stocks budget
          (st.scanOffset.getD 0) nr sc off1 hl
        simp only
        by_cases hc : (stocks.length : ℤ) ≤ off1
        · rw [if_pos hc]
          exact Or.inr ⟨rfl, sc, stocks.length,
            (startResults st ++ nr).length, nr.length, rfl⟩
        · rw [if_neg hc]
          exact Or.inl hle

/-- A state in 4-hour cooldown (completed a pass one hour before `now`). -/
def stC6 : KVState := ⟨some 0, some [], some 0⟩

/-- On the concrete cooldown state, the batch scan returns the waiting
outcome with an hours value of 1 and changes nothing. -/
lemma runBatchScan_stC6 :
    runBatchScan true (fun _ => none) [] 3600 0 stC6 =
      ⟨some (.waiting 1), stC6, []⟩ := by
  have h1 : cooldownHours 3600 0 = 1 := by norm_num [cooldownHours]
  have h2 : waitingCheck stC6 3600 = some 1 := by
    rw [waitingCheck]
    simp [stC6, h1]
  rw [runBatchScan]
  simp [h2]

/-- Counterexample to C6 as stated: the waiting outcome returned during the
cooldown carries a status and message but none of the five counts. -/
theorem runBatchScan_waiting_lacks_counts_cex :
    (runBatchScan true (fun _ => none) [] 3600 0 stC6).outcome =
      some (.waiting 1)
    ∧ BatchOutcome.hasCounts (.waiting 1) = false := by
  rw [runBatchScan_stC6]
  exact ⟨rfl, rfl⟩

/-- C6 as amended: with the price library importable, every outcome returned
by `run_batch_scan` has a status among waiting, partial_complete and
scan_complete; the partial_complete and scan_complete outcomes carry the five
counts, while the waiting outcome carries none of them. -/
theorem runBatchScan_outcome_status_counts (fetch : String → Option History)
    (stocks : List String) (now : ℤ) (budget : Nat) (st : KVState)
    (o : BatchOutcome)
    (ho : (runBatchScan true fetch stocks now budget st).outcome = some o) :
    (o.statusOf = some "waiting" ∧ o.hasCounts = false)
    ∨ ((o.statusOf = some "partial_complete" ∨ o.statusOf = some "scan_complete")
        ∧ o.hasCounts = true) := by
  rw [runBatchScan] at ho
  simp only [Bool.true_eq_false, if_false] at ho
  cases hw : waitingCheck st now with
  | some hrs =>
    rw [hw] at ho
    simp only [Option.some.injEq] at ho
    subst ho
    exact Or.inl ⟨rfl, rfl⟩
  | none =>
    rw [hw] at ho
    simp only at ho
    cases hl : scanLoop fetch stocks budget (st.scanOffset.getD 0) with
    | idxError => rw [hl] at ho; cases ho
    | ok nr sc off1 =>
      rw [hl] at ho
      simp only at ho
      by_cases hc : (stocks.length : ℤ) ≤ off1
      · rw [if_pos hc] at ho
        simp only [Option.some.injEq] at ho
        subst ho
        exact Or.inr ⟨Or.inr rfl, rfl⟩
      · rw [if_neg hc] at ho
        simp only [Option.some.injEq] at ho
        subst ho
        exact Or.inr ⟨Or.inl rfl, rfl⟩

/-- Witness for C6 as amended, at the concrete cooldown state. -/
theorem runBatchScan_outcome_status_counts_witness :
    (BatchOutcome.statusOf (.waiting 1) = some "waiting"
      ∧ BatchOutcome.hasCounts (.waiting 1) = false)
    ∨ ((BatchOutcome.statusOf (.waiting 1) = some "partial_complete"
        ∨ BatchOutcome.statusOf (.waiting 1) = some "scan_complete")
        ∧ BatchOutcome.hasCounts (.waiting 1) = true) :=
  runBatchScan_outcome_status_counts (fun _ => none) [] 3600 0 stC6 (.waiting 1)
    (by rw [runBatchScan_stC6])

/-- A one-bar price series used against the short-series claim. -/
def oneBar : History := [⟨0, 10, 12, 6, 10, 0⟩]

/-- Counterexample to C7 as stated: on a 1-bar series the webhook evaluator
`handle_check` (cited by the claim) does not mark the SMA criteria
insufficient while computing criteria 8 and 9 — it rejects the series
outright with the under-50-days error before evaluating any criterion. -/
theorem handleCheck_short_series_cex :
    handleCheck (some oneBar) = CheckOut.insufficientDays 1 := by decide

/-- C7 as amended: for a 1-to-49-bar series the scan-endpoint evaluator
`quick_check_stock` marks criteria 1, 2, 3, 5, 6, 7 insufficient-data while
still computing criteria 8 and 9, whereas the webhook evaluator
`handle_check` rejects the series with its under-50-days error before
evaluating; an empty series yields the error result in both evaluators, and
neither lets an exception escape (both are total, returning error values). -/
theorem short_series_criteria (hist : History) (sym : String) :
    (0 < hist.length → hist.length < 50 →
      ((criteriaScan hist)[0]? = some none ∧ (criteriaScan hist)[1]? = some none
       ∧ (criteriaScan hist)[2]? = some none ∧ (criteriaScan hist)[4]? = some none
       ∧ (criteriaScan hist)[5]? = some none ∧ (criteriaScan hist)[6]? = some none
       ∧ (∃ b, (criteriaScan hist)[7]? = some (some b))
       ∧ (∃ b, (criteriaScan hist)[8]? = some (some b))
       ∧ handleCheck (some hist) = CheckOut.insufficientDays hist.length))
    ∧ quickCheckStock sym (some []) = QuickOut.errRes sym
    ∧ handleCheck (some []) = CheckOut.noData := by
  refine ⟨?_, rfl, rfl⟩
  intro h0 h50
  have hs : ∀ w : Nat, hist.length < w → smaLast w hist = none := by
    intro w hw
    rw [smaLast, smaFromEnd, if_neg (by omega)]
  have h50sma : smaLast 50 hist = none := hs 50 (by omega)
  have h150 : smaLast 150 hist = none := hs 150 (by omega)
  have h200 : smaLast 200 hist = none := hs 200 (by omega)
  have hne : hist.isEmpty = false := by
    cases hist with
    | nil => simp at h0
    | cons a t => rfl
  refine ⟨?_, ?_, ?_, ?_, ?_, ?_,
    ⟨decide (pctAboveLow hist ≥ 30), ?_⟩,
    ⟨decide (pctFromHigh hist ≤ 25), ?_⟩, ?_⟩ <;>
    simp [criteriaScan, h50sma, h150, h200, pyAnd, handleCheck, hne, h50]

/-- Witness for C7 as amended at the concrete one-bar series. -/
theorem short_series_criteria_witness :
    ((criteriaScan oneBar)[0]? = some none ∧ (criteriaScan oneBar)[1]? = some none
     ∧ (criteriaScan oneBar)[2]? = some none ∧ (criteriaScan oneBar)[4]? = some none
     ∧ (criteriaScan oneBar)[5]? = some none ∧ (criteriaScan oneBar)[6]? = some none
     ∧ (∃ b, (criteriaScan oneBar)[7]? = some (some b))
     ∧ (∃ b, (criteriaScan oneBar)[8]? = some (some b))
     ∧ handleCheck (some oneBar) = CheckOut.insufficientDays 1)
    ∧ quickCheckStock "X" (some []) = QuickOut.errRes "X"
    ∧ handleCheck (some []) = CheckOut.noData := by
  have h := short_series_criteria oneBar "X"
  have h1 := h.1 (by decide) (by decide)
  exact ⟨by simpa using h1, h.2.1, h.2.2⟩

/-- C8: `get_all_stocks` always returns a non-empty list (given that the
curated Nifty-500 list is non-empty when it loads, per the spec); a usable
large list (non-empty, more than 1000 symbols) is returned as is; otherwise
the mid list is returned when it loads, and the hard-coded fallback list
otherwise — the caller sees only a plain list, never which tier produced it. -/
theorem getAllStocks_nonempty_fallback (large mid : Option (List String))
    (hmid : ∀ m, mid = some m → m ≠ []) :
    getAllStocks large mid ≠ []
    ∧ (∀ s, large = some s → s ≠ [] → 1000 < s.length → getAllStocks large mid = s)
    ∧ ((large = none ∨ ∃ s, large = some s ∧ (s = [] ∨ s.length ≤ 1000)) →
        (∀ m, mid = some m → getAllStocks large mid = m)
        ∧ (mid = none → getAllStocks large mid = fallbackStocks)) := by
  have hmf1 : getMidOrFallback mid ≠ [] := by
    cases mid with
    | none => simp [getMidOrFallback, fallbackStocks]
    | some m => simpa [getMidOrFallback] using hmid m rfl
  have hmf2 : ∀ m, mid = some m → getMidOrFallback mid = m := by
    intro m h
    subst h
    rfl
  have hmf3 : mid = none → getMidOrFallback mid = fallbackStocks := by
    intro h
    subst h
    rfl
  cases large with
  | none =>
    refine ⟨hmf1, ?_, ?_⟩
    · intro s h
      exact Option.noConfusion h
    · intro _
      exact ⟨hmf2, hmf3⟩
  | some s =>
    have hdef : getAllStocks (some s) mid =
        if s.isEmpty = false ∧ 1000 < s.length then s else getMidOrFallback mid := rfl
    by_cases hbig : s.isEmpty = false ∧ 1000 < s.length
    · rw [hdef, if_pos hbig]
      refine ⟨?_, ?_, ?_⟩
      · intro he
        rw [he] at hbig
        simp at hbig
      · intro s2 h h1 h2
        exact Option.some.inj h
      · rintro (h | ⟨s2, hs2, hbad⟩)
        · exact Option.noConfusion h
        · exfalso
          have he : s = s2 := Option.some.inj hs2
          subst he
          rcases hbad with h | h
          · rw [h] at hbig; simp at hbig
          · have := hbig.2; omega
    · rw [hdef, if_neg hbig]
      refine ⟨hmf1, ?_, ?_⟩
      · intro s2 h h1 h2
        exfalso
        have he : s = s2 := Option.some.inj h
        subst he
        refine hbig ⟨?_, h2⟩
        cases s with
        | nil => exact absurd rfl h1
        | cons a t => rfl
      · intro _
        exact ⟨hmf2, hmf3⟩

/-- Witness for C8: both external lists unavailable, the hard-coded fallback
still yields a non-empty universe. -/
theorem getAllStocks_nonempty_fallback_witness :
    getAllStocks none none ≠ [] :=
  (getAllStocks_nonempty_fallback none none (fun m h => by cases h)).1

/-- A qualifying `check_stock_quick` result records score 9 and stems from a
fetched series of at least 200 bars on which all nine criteria hold. -/
lemma checkStockQuick_qualifies (fetch : String → Option History) (sym : String)
    (r : ScanResult) (h : checkStockQuick fetch sym = some r) :
    r.score = 9 ∧ ∃ hist, fetch (tickerSymbol sym) = some hist
      ∧ 200 ≤ hist.length ∧ ∀ c ∈ criteriaQuick hist, c = true := by
  cases hf : fetch (tickerSymbol sym) with
  | none =>
    simp only [checkStockQuick, hf] at h
    exact Option.noConfusion h
  | some hist =>
    simp only [checkStockQuick, hf] at h
    have hlen9 : (criteriaQuick hist).length = 9 := by simp [criteriaQuick]
    split at h
    · exact Option.noConfusion h
    next hg =>
      split at h
      next hsc =>
        have hle : (criteriaQuick hist).countP id ≤ 9 :=
          hlen9 ▸ List.countP_le_length id
        have hscore : (criteriaQuick hist).countP id = 9 := le_antisymm hle hsc
        have hall : ∀ c ∈ criteriaQuick hist, c = true := by
          have hfull : (criteriaQuick hist).countP id = (criteriaQuick hist).length := by
            rw [hlen9]; exact hscore
          have := List.countP_eq_length.mp hfull
          intro c hc
          simpa using this c hc
        have hg2 : 200 ≤ hist.length := by
          simp only [Bool.or_eq_true, not_or, decide_eq_true_eq] at hg
          omega
        have hr := (Option.some.inj h).symm
        constructor
        · rw [hr]
          exact hscore
        · exact ⟨hist, rfl, hg2, hall⟩
      next => exact Option.noConfusion h

/-- Every result in the per-invocation `new_results` list of the scanning
loop was returned by `check_stock_quick`. -/
lemma scanLoop_results_from_check (fetch : String → Option History)
    (stocks : List String) (budget : Nat) :
    ∀ (off : ℤ) (nr : List ScanResult) (sc : Nat) (off1 : ℤ),
      scanLoop fetch stocks budget off = .ok nr sc off1 →
      ∀ r ∈ nr, ∃ sym, checkStockQuick fetch sym = some r := by
  induction budget with
  | zero =>
    intro off nr sc off1 h r hr
    rw [scanLoop] at h
    cases h
    simp at hr
  | succ b ih =>
    intro off nr sc off1 h r hr
    rw [scanLoop] at h
    by_cases hlt : off < (stocks.length : ℤ)
    · rw [if_pos hlt] at h
      cases hpi : pyIndex stocks off with
      | none => rw [hpi] at h; cases h
      | some sym =>
        rw [hpi] at h
        simp only at h
        cases hrec : scanLoop fetch stocks b (off + 1) with
        | idxError => rw [hrec] at h; cases h
        | ok nr2 sc2 off2 =>
          rw [hrec] at h
          cases h
          rw [List.mem_append] at hr
          rcases hr with hr | hr
          · by_cases hsym : sym ≠ ""
            · rw [if_pos hsym] at hr
              cases hcq : checkStockQuick fetch sym with
              | none => rw [hcq] at hr; simp at hr
              | some v =>
                rw [hcq] at hr
                simp at hr
                exact ⟨sym, by rw [hcq, hr]⟩
            · rw [if_neg hsym] at hr
              simp at hr
          · exact ih (off + 1) _ _ _ hrec r hr
    · rw [if_neg hlt] at h
      cases h
      simp at hr

/-- C10: every result held in the persisted `scan_results` after a
`run_batch_scan` invocation either was already persisted before it or is a
fully qualifying result: score 9, produced by `check_stock_quick` from a
fetched series with at least 200 bars on which all nine criteria are true. -/
theorem runBatchScan_results_only_qualifying (fetch : String → Option History)
    (stocks : List String) (now : ℤ) (budget : Nat) (st : KVState)
    (r : ScanResult)
    (hmem : r ∈ (runBatchScan true fetch stocks now budget st).state.scanResults.getD []) :
    r ∈ st.scanResults.getD []
    ∨ (r.score = 9 ∧ ∃ hist, 200 ≤ hist.length
        ∧ (∀ c ∈ criteriaQuick hist, c = true)
        ∧ ∃ sym, fetch (tickerSymbol sym) = some hist) := by
  rw [runBatchScan] at hmem
  simp only [Bool.true_eq_false, if_false] at hmem
  cases hw : waitingCheck st now with
  | some hrs =>
    rw [hw] at hmem
    exact Or.inl hmem
  | none =>
    rw [hw] at hmem
    simp only at hmem
    cases hl : scanLoop fetch stocks budget (st.scanOffset.getD 0) with
    | idxError =>
      rw [hl] at hmem
      exact Or.inl hmem
    | ok nr sc off1 =>
      rw [hl] at hmem
      simp only at hmem
      have hsplit : r ∈ startResults st ++ nr := by
        by_cases hc : (stocks.length : ℤ) ≤ off1
        · rw [if_pos hc] at hmem; exact hmem
        · rw [if_neg hc] at hmem; exact hmem
      rw [List.mem_append] at hsplit
      rcases hsplit with hone | htwo
      · rw [startResults] at hone
        by_cases h0 : st.scanOffset.getD 0 = 0
        · rw [if_pos h0] at hone; simp at hone
        · rw [if_neg h0] at hone; exact Or.inl hone
      · rcases scanLoop_results_from_check fetch stocks budget _ _ _ _ hl r htwo
          with ⟨sym, hs⟩
        rcases checkStockQuick_qualifies fetch sym r hs with ⟨h9, hist, hf, hln, hall⟩
        exact Or.inr ⟨h9, hist, hln, hall, sym, hf⟩

/-- A previously persisted (non-qualifying-looking) result. -/
def r0 : ScanResult := ⟨"X", 1, 0, 1, 1, 1, 0, 0⟩

/-- A mid-pass state already holding `r0`. -/
def stC10 : KVState := ⟨some 1, some [r0], none⟩

/-- Witness for C10: a result that was already persisted passes through. -/
theorem runBatchScan_results_only_qualifying_witness :
    r0 ∈ stC10.scanResults.getD []
    ∨ (r0.score = 9 ∧ ∃ hist, 200 ≤ hist.length
        ∧ (∀ c ∈ criteriaQuick hist, c = true)
        ∧ ∃ sym, (fun _ => (none : Option History)) (tickerSymbol sym) = some hist) :=
  runBatchScan_results_only_qualifying (fun _ => none) ["A"] 0 0 stC10 r0 (by decide)

end Screener
